import Mathlib

/-!
Verification of the frame-capture and animated-GIF export core of
`src/image/image.js` (p5.js image module), against its specification.

The embedding covers:
* the gifenc collaborator (`quantize`, `applyPalette`, `GIFEncoder`),
  whose source is not part of this repository and is therefore modelled
  from the specification (sections 4.2 to 4.4 and 6);
* `encodeAndDownloadGif`, transcribed from the source;
* `saveFrames` and its `setInterval`/`setTimeout` capture loop,
  transcribed from the source as a deterministic event sequence;
* `_makeFrame`, transcribed from the source.

Machine numbers of the JavaScript source are embedded as `Nat` (byte
channels, counts) and `ℚ` (fps, durations, delays): none of the claims
under check depends on floating-point rounding.
-/

namespace P5Image

/-- One RGBA sample: four 8-bit channels, as read from canvas pixel data. -/
structure RGBA where
  r : Nat
  g : Nat
  b : Nat
  a : Nat
deriving DecidableEq

/-- Modelled from the spec: the `rgba4444` pixel-format profile selected at
image.js line 201 ("Choose a pixel format: rgba4444"), a fixed-bit-depth
channel profile of the gifenc dependency (its source is not in this
repository). Each 8-bit channel is reduced to 4 bits of precision. -/
def reduce4444 (c : RGBA) : RGBA :=
  ⟨c.r / 16, c.g / 16, c.b / 16, c.a / 16⟩

/-- Absolute difference of two channel values, in `Nat`. -/
def channelDiff (x y : Nat) : Nat := (x - y) + (y - x)

/-- Modelled from the spec: the distance/matching rule shared by the
quantizer and the palette indexer (spec 4.3: "Must use the identical
distance/matching rule the Quantizer used"): squared distance over the
reduced channels. -/
def dist (x y : RGBA) : Nat :=
  channelDiff x.r y.r * channelDiff x.r y.r +
  channelDiff x.g y.g * channelDiff x.g y.g +
  channelDiff x.b y.b * channelDiff x.b y.b +
  channelDiff x.a y.a * channelDiff x.a y.a

/-- Keep the first occurrence of every color, preserving first-occurrence
order (deterministic palette ordering, spec 4.2). -/
def firstDedup : List RGBA → List RGBA
  | [] => []
  | c :: rest => c :: (firstDedup rest).filter (fun x => decide (x ≠ c))

/-- Modelled from the spec: `quantize(rawPixels, maxColors, format)` of the
gifenc dependency (spec 4.2): reduce every sample to the format profile,
collect the distinct reduced colors in first-occurrence order, and bound the
palette by `maxColors`. A frame with fewer distinct colors than `maxColors`
yields a palette sized to the distinct-color count. -/
def quantize (data : List RGBA) (maxColors : Nat) : List RGBA :=
  (firstDedup (data.map reduce4444)).take maxColors

/-- Modelled from the spec: the index of the closest palette entry under
`dist` (spec 4.3: "the index into palette of the closest color"), ties
resolved to the earliest entry (deterministic). -/
def nearestIdx (c : RGBA) : List RGBA → Nat
  | [] => 0
  | p :: rest =>
    match rest.get? (nearestIdx c rest) with
    | none => 0
    | some q => if dist c p ≤ dist c q then 0 else nearestIdx c rest + 1

/-- Modelled from the spec: `applyPalette(rawPixels, palette, format)` of the
gifenc dependency (spec 4.3): one index byte per source pixel, each the index
of the closest palette entry under the format profile used for quantization. -/
def applyPalette (data : List RGBA) (palette : List RGBA) : List Nat :=
  data.map (fun c => nearestIdx (reduce4444 c) palette)

/-- A raw captured raster: RGBA samples plus its own dimensions
(`frames[i].image` in the source). -/
structure RawImage where
  data : List RGBA
  width : Nat
  height : Nat
deriving DecidableEq

/-- One entry of `pImg.gifProperties.frames`: a raster and its delay. -/
structure GifFrame where
  image : RawImage
  delay : ℚ
deriving DecidableEq

/-- Modelled from the spec: one structural chunk of the output container
(spec 6: logical-screen header, self-contained frame records, trailer). -/
inductive GifChunk where
  | header : GifChunk
  | frame (index : List Nat) (width height : Nat) (palette : List RGBA) (delay : ℚ) : GifChunk
  | trailer : GifChunk
deriving DecidableEq

/-- Modelled from the spec: the state of a gifenc GIFEncoder (spec 4.4,
states Open, Writing, Finished): the chunks written so far and whether the
trailer has been appended. -/
structure GifEncoder where
  chunks : List GifChunk
  finished : Bool
deriving DecidableEq

/-- Modelled from the spec: `GIFEncoder()` builds a fresh encoder whose
stream holds only the initialized header (state Open). -/
def GIFEncoder : GifEncoder := ⟨[GifChunk.header], false⟩

/-- Modelled from the spec: `gif.writeFrame(index, width, height, opts)`
appends one self-contained frame record (palette table, per-frame delay,
frame dimensions and the indexed pixel payload), in strict call order. -/
def writeFrame (g : GifEncoder) (index : List Nat) (width height : Nat)
    (palette : List RGBA) (delay : ℚ) : GifEncoder :=
  { g with chunks := g.chunks ++ [GifChunk.frame index width height palette delay] }

/-- Modelled from the spec: `gif.finish()` appends the terminal trailer;
the stream becomes immutable. -/
def finish (g : GifEncoder) : GifEncoder :=
  { chunks := g.chunks ++ [GifChunk.trailer], finished := true }

/-- The self-contained record `encodeAndDownloadGif` writes for one frame
(image.js 198-210): the palette quantized from the data of this frame with
`maxColors = 256` and profile rgba4444, the indexed payload from the same
data and palette, the ambient sketch `width`/`height` globals, and the delay
of this frame. -/
def frameRecord (width height : Nat) (f : GifFrame) : GifChunk :=
  GifChunk.frame (applyPalette f.image.data (quantize f.image.data 256))
    width height (quantize f.image.data 256) f.delay

/-- The arguments of the `downloadFile` boundary call (image.js 225): the
blob payload (the encoded byte stream), the file name, and the extension. -/
structure DownloadCall where
  payload : List GifChunk
  filename : String
  extension : String
deriving DecidableEq

/-- Transcription of `p5.prototype.encodeAndDownloadGif` (image.js 188-226):
loop over `pImg.gifProperties.frames` in input order, quantize each frame,
index it, write it into the encoder with the global `width`/`height` and the
frame delay; then finish the stream and hand the buffer to `downloadFile` as
a gif. Returns the finished byte stream and the delivery call made. -/
def encodeAndDownloadGif (frames : List GifFrame) (width height : Nat)
    (filename : String) : List GifChunk × DownloadCall :=
  let gif := frames.foldl
    (fun g f =>
      let data := f.image.data
      let palette := quantize data 256
      let index := applyPalette data palette
      writeFrame g index width height palette f.delay)
    GIFEncoder
  let gifDone := finish gif
  let buffer := gifDone.chunks
  (buffer, ⟨buffer, filename, "gif"⟩)

/-- One frame record as read back by a conforming decoder. -/
structure DecodedFrame where
  index : List Nat
  width : Nat
  height : Nat
  palette : List RGBA
  delay : ℚ
deriving DecidableEq

/-- A conforming decoder for the container (spec 6: "Any conforming decoder
for that public format must be able to read back frame count, per-frame
delay, and pixel content"): it reads the frame records in stream order,
skipping the header and trailer. -/
def decodeFrames (chunks : List GifChunk) : List DecodedFrame :=
  chunks.filterMap fun ch =>
    match ch with
    | GifChunk.frame i w h p d => some ⟨i, w, h, p, d⟩
    | _ => none

/-- Transcription of `p5.prototype.constrain(n, low, high)`
(`Math.max(Math.min(n, high), low)`), used by `saveFrames` for both clamps. -/
def constrain (n low high : ℚ) : ℚ := max (min n high) low

/-- A JavaScript `x || d` default on an optional numeric argument: an absent
argument or the falsy number 0 is replaced by the default `d`. -/
def jsOr (v : Option ℚ) (d : ℚ) : ℚ :=
  match v with
  | none => d
  | some x => if x = 0 then d else x

/-- The fps `saveFrames` actually uses (image.js 275-276):
`let fps = _fps || 15; fps = constrain(fps, 0, 22)`. -/
def effFps (fpsArg : Option ℚ) : ℚ := constrain (jsOr fpsArg 15) 0 22

/-- The capture window in milliseconds (image.js 272-274):
`let duration = _duration || 3; duration = constrain(duration, 0, 15);
duration = duration * 1000`. -/
def effDurationMs (durArg : Option ℚ) : ℚ := constrain (jsOr durArg 3) 0 15 * 1000

/-- The instant the terminating `setTimeout` fires (image.js 287-297):
`duration + 0.01` milliseconds after the session starts. -/
def cutoffMs (durArg : Option ℚ) : ℚ := effDurationMs durArg + 1 / 100

/-- How many interval ticks fire before the cutoff: the `setInterval` of
image.js 282 fires at `k * (1000 / fps)` milliseconds for `k = 1, 2, ...`,
and a tick is captured exactly when it fires no later than the cutoff. -/
def tickCount (fps cutoff : ℚ) : Nat :=
  if 0 < fps then (⌊cutoff * fps / 1000⌋).toNat else 0

/-- JavaScript `String.replace` with a plain-string pattern, on character
lists: only the first (leftmost) occurrence of the pattern is replaced. -/
def replaceCharsFirst (pat repl : List Char) : List Char → List Char
  | [] => []
  | c :: rest =>
    if pat.isPrefixOf (c :: rest) then repl ++ (c :: rest).drop pat.length
    else c :: replaceCharsFirst pat repl rest

/-- JavaScript `String.replace` with a plain-string pattern: only the first
occurrence is replaced (image.js 329 replaces the mime type inside the data
URI with the download mime type). -/
def replaceFirst (s pat repl : String) : String :=
  String.mk (replaceCharsFirst pat.data repl.data s.data)

/-- JavaScript `String.prototype.toLowerCase` restricted to the ASCII range
(enough for the extension comparisons of image.js 312). -/
def jsToLower (s : String) : String := String.mk (s.data.map Char.toLower)

/-- The extension field of the record `_makeFrame` builds (image.js 308-309):
a missing or empty extension defaults to png, anything else is kept as
given. -/
def frameExt (extension : Option String) : String :=
  match extension with
  | none => "png"
  | some e => if e = "" then "png" else e

/-- The mime type `_makeFrame` selects (image.js 308-326): png by default,
jpeg for the lowercased extensions jpeg and jpg, png for everything else. -/
def frameMime (extension : Option String) : String :=
  match extension with
  | none => "image/png"
  | some e =>
    if e = "" then "image/png"
    else if jsToLower e = "png" then "image/png"
    else if jsToLower e = "jpeg" then "image/jpeg"
    else if jsToLower e = "jpg" then "image/jpeg"
    else "image/png"

/-- One still-export record (image.js 331-335): imageData, filename, ext. -/
structure FrameRecord where
  imageData : String
  filename : String
  ext : String
deriving DecidableEq

/-- Transcription of `p5.prototype._makeFrame` (image.js 300-336), called
from `saveFrames` with the canvas passed explicitly. `toDataURL` is the
external canvas collaborator: mime type in, data URI out. The data URI has
its selected mime type replaced by the octet-stream download mime. -/
def makeFrame (filename : String) (extension : Option String)
    (toDataURL : String → String) : FrameRecord :=
  let mimeType := frameMime extension
  let downloadMime := "image/octet-stream"
  { imageData := replaceFirst (toDataURL mimeType) mimeType downloadMime
    filename := filename
    ext := frameExt extension }

/-- What `saveFrames` hands to its continuation (image.js 289-295): the
buffer to the caller-supplied callback, or one `downloadFile` call per
buffered record, in buffer order. -/
inductive Delivery where
  | toCallback (frames : List FrameRecord) : Delivery
  | downloads (files : List FrameRecord) : Delivery
deriving DecidableEq

/-- The mutable state the `saveFrames` closure owns (image.js 277-297): the
frame buffer, the tick counter, whether the interval is still scheduled, and
what has been delivered. One fresh state is created per call
(`let frames = []; let count = 0`). -/
structure SessionState where
  frames : List FrameRecord
  count : Nat
  intervalActive : Bool
  delivered : Option Delivery
deriving DecidableEq

/-- The state a `saveFrames` call starts from. -/
def initState : SessionState := ⟨[], 0, true, none⟩

/-- One firing of the `setInterval` callback (image.js 282-285): while the
interval is scheduled, append `makeFrame(fName + count, ext, cnv)` to the
buffer and increment the counter; a fire after `clearInterval` does
nothing. -/
def stepTick (mk : Nat → FrameRecord) (s : SessionState) : SessionState :=
  if s.intervalActive then
    { s with frames := s.frames ++ [mk s.count], count := s.count + 1 }
  else s

/-- The firing of the terminating `setTimeout` callback (image.js 287-297):
cancel the interval, hand the buffer to the callback if one was supplied and
otherwise download every buffered record in order, then clear the buffer. -/
def stepTimeout (callback : Bool) (s : SessionState) : SessionState :=
  { frames := []
    count := s.count
    intervalActive := false
    delivered := some (if callback then Delivery.toCallback s.frames
                       else Delivery.downloads s.frames) }

/-- The session state once the `ticks` interval firings at or before the
cutoff have run. -/
def capturePhase (mk : Nat → FrameRecord) (ticks : Nat) : SessionState :=
  (stepTick mk)^[ticks] initState

/-- The whole deterministic event sequence of one `saveFrames` session:
`ticks` interval firings at or before the cutoff, the timeout firing, and
`late` would-be interval firings after the cutoff (cancelled by
`clearInterval`, so they must not change anything). -/
def runSession (mk : Nat → FrameRecord) (callback : Bool)
    (ticks late : Nat) : SessionState :=
  (stepTick mk)^[late] (stepTimeout callback (capturePhase mk ticks))

/-- The frame factory `saveFrames` uses at image.js 283:
`makeFrame(fName + count, ext, cnv)`. -/
def sessionMk (fName : String) (ext : Option String)
    (toDataURL : String → String) : Nat → FrameRecord :=
  fun count => makeFrame (fName ++ toString count) ext toDataURL

/-- Transcription of `p5.prototype.saveFrames` (image.js 270-298) as the
final state of its event sequence: defaults and clamps applied to the
arguments, ticks scheduled every `1000 / fps` milliseconds, the timeout at
`duration + 0.01` milliseconds, plus `late` cancelled firings. -/
def saveFramesModel (fName : String) (ext : Option String)
    (durArg fpsArg : Option ℚ) (callback : Bool)
    (toDataURL : String → String) (late : Nat) : SessionState :=
  runSession (sessionMk fName ext toDataURL) callback
    (tickCount (effFps fpsArg) (cutoffMs durArg)) late

/-- A solid fill color for the single-color scenario. -/
def solidColor : RGBA := ⟨30, 90, 200, 255⟩

/-- A solid-color 10 by 10 RGBA frame: 100 identical samples. -/
def solidFrame : List RGBA := List.replicate 100 solidColor

/-- An opaque red sample for the dimension-mismatch scenario. -/
def redPixel : RGBA := ⟨255, 0, 0, 255⟩

/-- A 4 by 1 raster of red pixels. -/
def smallImage : RawImage := ⟨List.replicate 4 redPixel, 4, 1⟩

/-- A 5 by 1 raster of red pixels: same height, different width. -/
def wideImage : RawImage := ⟨List.replicate 5 redPixel, 5, 1⟩

/-- Five frames in which frame 3 of 5 has a different width than the rest. -/
def mismatchedFrames : List GifFrame :=
  [⟨smallImage, 10⟩, ⟨smallImage, 10⟩, ⟨wideImage, 10⟩,
   ⟨smallImage, 10⟩, ⟨smallImage, 10⟩]

/-- A concrete canvas collaborator for witnesses: a data URI carrying the
requested mime type. -/
def demoURL : String → String := fun m => "data:" ++ m ++ ";base64,AAAA"

/-- A concrete frame factory for witnesses. -/
def demoMk : Nat → FrameRecord := fun c => ⟨"data", "frame" ++ toString c, "png"⟩

/-! ### Lemmas about the quantizer and indexer -/

theorem channelDiff_eq_zero (x y : Nat) : channelDiff x y = 0 ↔ x = y := by
  unfold channelDiff
  omega

theorem dist_self (x : RGBA) : dist x x = 0 := by
  simp [dist, channelDiff]

theorem dist_eq_zero (x y : RGBA) : dist x y = 0 ↔ x = y := by
  constructor
  · intro h
    unfold dist at h
    have hr : channelDiff x.r y.r = 0 := by
      rcases Nat.mul_eq_zero.mp (by omega : channelDiff x.r y.r * channelDiff x.r y.r = 0) with h1 | h1 <;> exact h1
    have hg : channelDiff x.g y.g = 0 := by
      rcases Nat.mul_eq_zero.mp (by omega : channelDiff x.g y.g * channelDiff x.g y.g = 0) with h1 | h1 <;> exact h1
    have hb : channelDiff x.b y.b = 0 := by
      rcases Nat.mul_eq_zero.mp (by omega : channelDiff x.b y.b * channelDiff x.b y.b = 0) with h1 | h1 <;> exact h1
    have ha : channelDiff x.a y.a = 0 := by
      rcases Nat.mul_eq_zero.mp (by omega : channelDiff x.a y.a * channelDiff x.a y.a = 0) with h1 | h1 <;> exact h1
    cases x; cases y
    simp only [channelDiff_eq_zero] at hr hg hb ha
    simp_all
  · intro h
    subst h
    exact dist_self x

theorem mem_firstDedup (x : RGBA) : ∀ l : List RGBA, x ∈ firstDedup l ↔ x ∈ l := by
  intro l
  induction l with
  | nil => simp [firstDedup]
  | cons c rest ih =>
    simp only [firstDedup, List.mem_cons, List.mem_filter, decide_eq_true_eq, ih]
    constructor
    · rintro (h | ⟨h, _⟩)
      · exact Or.inl h
      · exact Or.inr h
    · rintro (h | h)
      · exact Or.inl h
      · by_cases hx : x = c
        · exact Or.inl hx
        · exact Or.inr ⟨h, hx⟩

theorem firstDedup_nodup : ∀ l : List RGBA, (firstDedup l).Nodup := by
  intro l
  induction l with
  | nil => simp [firstDedup]
  | cons c rest ih =>
    refine List.Nodup.cons ?_ (List.Nodup.filter _ ih)
    intro hmem
    rcases List.mem_filter.mp hmem with ⟨_, hdec⟩
    simp only [decide_eq_true_eq] at hdec
    exact hdec rfl

theorem quantize_nodup (data : List RGBA) (m : Nat) : (quantize data m).Nodup :=
  (List.take_sublist m _).nodup (firstDedup_nodup _)

theorem quantize_length_le (data : List RGBA) (m : Nat) :
    (quantize data m).length ≤ m := by
  simpa [quantize] using List.length_take_le m (firstDedup (data.map reduce4444))

theorem nearestIdx_min (c : RGBA) :
    ∀ (l : List RGBA) (k : Nat) (q : RGBA), l.get? k = some q →
      ∃ r, l.get? (nearestIdx c l) = some r ∧ dist c r ≤ dist c q := by
  intro l
  induction l with
  | nil => intro k q hk; simp at hk
  | cons p rest ih =>
    intro k q hk
    unfold nearestIdx
    cases hbest : rest.get? (nearestIdx c rest) with
    | none =>
      refine ⟨p, by simp, ?_⟩
      cases k with
      | zero =>
        simp only [List.get?_cons_zero, Option.some.injEq] at hk
        subst hk; exact le_refl _
      | succ k =>
        simp only [List.get?_cons_succ] at hk
        rcases ih k q hk with ⟨r, hr, _⟩
        rw [hbest] at hr
        exact absurd hr (by simp)
    | some q0 =>
      by_cases hle : dist c p ≤ dist c q0
      · simp only [hle, if_true]
        refine ⟨p, by simp, ?_⟩
        cases k with
        | zero =>
          simp only [List.get?_cons_zero, Option.some.injEq] at hk
          subst hk; exact le_refl _
        | succ k =>
          simp only [List.get?_cons_succ] at hk
          rcases ih k q hk with ⟨r, hr, hrq⟩
          rw [hbest] at hr
          obtain rfl : q0 = r := by simpa using hr
          exact le_trans hle hrq
      · simp only [hle, if_false]
        refine ⟨q0, by simpa using hbest, ?_⟩
        cases k with
        | zero =>
          simp only [List.get?_cons_zero, Option.some.injEq] at hk
          subst hk
          exact le_of_not_le hle
        | succ k =>
          simp only [List.get?_cons_succ] at hk
          rcases ih k q hk with ⟨r, hr, hrq⟩
          rw [hbest] at hr
          obtain rfl : q0 = r := by simpa using hr
          exact hrq

theorem nearestIdx_of_mem (c : RGBA) (palette : List RGBA) (i : Nat)
    (hnd : palette.Nodup) (hi : palette.get? i = some c) :
    nearestIdx c palette = i := by
  rcases nearestIdx_min c palette i c hi with ⟨r, hr, hrle⟩
  have hr0 : dist c r = 0 := Nat.le_zero.mp (by simpa [dist_self] using hrle)
  have hrc : r = c := ((dist_eq_zero c r).mp hr0).symm
  rw [hrc] at hr
  have hlt : nearestIdx c palette < palette.length := by
    by_contra hge
    rw [List.get?_eq_none.mpr (Nat.le_of_not_lt hge)] at hr
    exact absurd hr (by simp)
  have hlt' : i < palette.length := by
    by_contra hge
    rw [List.get?_eq_none.mpr (Nat.le_of_not_lt hge)] at hi
    exact absurd hi (by simp)
  exact List.get?_inj hlt hnd (hr.trans hi.symm)

/-! ### Lemmas about the encoder -/

theorem encode_foldl_chunks (width height : Nat) (frames : List GifFrame) :
    ∀ g : GifEncoder,
      (frames.foldl
        (fun g f =>
          let data := f.image.data
          let palette := quantize data 256
          let index := applyPalette data palette
          writeFrame g index width height palette f.delay) g).chunks
      = g.chunks ++ frames.map (frameRecord width height) := by
  induction frames with
  | nil => intro g; simp
  | cons f rest ih =>
    intro g
    rw [List.foldl_cons]
    rw [ih]
    simp [writeFrame, frameRecord]

theorem encodeAndDownloadGif_stream (frames : List GifFrame) (width height : Nat)
    (filename : String) :
    (encodeAndDownloadGif frames width height filename).1
      = GifChunk.header :: frames.map (frameRecord width height) ++ [GifChunk.trailer] := by
  simp only [encodeAndDownloadGif, finish, encode_foldl_chunks, GIFEncoder]
  simp

theorem decodeFrames_encode (frames : List GifFrame) (width height : Nat)
    (filename : String) :
    decodeFrames (encodeAndDownloadGif frames width height filename).1
      = frames.map fun f =>
          ⟨applyPalette f.image.data (quantize f.image.data 256),
           width, height, quantize f.image.data 256, f.delay⟩ := by
  rw [encodeAndDownloadGif_stream]
  induction frames with
  | nil => rfl
  | cons f rest ih =>
    simp only [List.map_cons, List.cons_append, decodeFrames, List.filterMap_cons,
      frameRecord] at ih ⊢
    exact congrArg _ ih

theorem encodeAndDownloadGif_delivery (frames : List GifFrame) (width height : Nat)
    (filename : String) :
    (encodeAndDownloadGif frames width height filename).2
      = ⟨(encodeAndDownloadGif frames width height filename).1, filename, "gif"⟩ := rfl

/-! ### Lemmas about the capture session -/

theorem tickCount_iff (fps cutoff : ℚ) (hfps : 0 < fps) (k : Nat) :
    ((k : ℚ) + 1) * (1000 / fps) ≤ cutoff ↔ k < tickCount fps cutoff := by
  unfold tickCount
  rw [if_pos hfps]
  have hper : (0 : ℚ) < 1000 / fps := by positivity
  rw [← le_div_iff hper, div_div_eq_mul_div]
  constructor
  · intro h
    have hfloor : ((k : ℤ) + 1) ≤ ⌊cutoff * fps / 1000⌋ := by
      rw [Int.le_floor]
      push_cast
      exact h
    omega
  · intro h
    have hfloor : ((k : ℤ) + 1) ≤ ⌊cutoff * fps / 1000⌋ := by omega
    have := Int.le_floor.mp hfloor
    push_cast at this
    exact this

theorem capturePhase_eq (mk : Nat → FrameRecord) :
    ∀ ticks : Nat, capturePhase mk ticks
      = ⟨(List.range ticks).map mk, ticks, true, none⟩ := by
  intro ticks
  induction ticks with
  | zero => rfl
  | succ n ih =>
    unfold capturePhase at ih ⊢
    rw [Function.iterate_succ_apply', ih]
    simp [stepTick, List.range_succ]

theorem stepTick_inactive (mk : Nat → FrameRecord) (s : SessionState)
    (h : s.intervalActive = false) : stepTick mk s = s := by
  simp [stepTick, h]

theorem stepTick_iterate_inactive (mk : Nat → FrameRecord) (s : SessionState)
    (h : s.intervalActive = false) : ∀ late : Nat, (stepTick mk)^[late] s = s := by
  intro late
  induction late with
  | zero => rfl
  | succ n ih => rw [Function.iterate_succ_apply', ih, stepTick_inactive mk s h]

theorem runSession_eq (mk : Nat → FrameRecord) (callback : Bool)
    (ticks late : Nat) :
    runSession mk callback ticks late
      = ⟨[], ticks, false,
         some (if callback then Delivery.toCallback ((List.range ticks).map mk)
               else Delivery.downloads ((List.range ticks).map mk))⟩ := by
  unfold runSession
  rw [stepTick_iterate_inactive _ _ rfl, capturePhase_eq]
  rfl

/-! ### Claim theorems -/

/-- C1: for any frame sequence, the encoder writes the frames in strict
input order, each self-contained record carrying the palette quantized from
that frame and the delay of that frame; decoding the produced stream yields
the records of the same N frames in the same order with the same delays; no
frame is reordered or deduplicated, and the whole stream is what is
delivered. -/
theorem c1_order_preserved (frames : List GifFrame) (width height : Nat)
    (filename : String) :
    decodeFrames (encodeAndDownloadGif frames width height filename).1
      = frames.map (fun f =>
          ⟨applyPalette f.image.data (quantize f.image.data 256),
           width, height, quantize f.image.data 256, f.delay⟩)
    ∧ (decodeFrames (encodeAndDownloadGif frames width height filename).1).map
        DecodedFrame.delay = frames.map GifFrame.delay
    ∧ (decodeFrames (encodeAndDownloadGif frames width height filename).1).length
        = frames.length
    ∧ (encodeAndDownloadGif frames width height filename).2.payload
        = (encodeAndDownloadGif frames width height filename).1 := by
  refine ⟨decodeFrames_encode frames width height filename, ?_, ?_, rfl⟩
  · rw [decodeFrames_encode frames width height filename, List.map_map]
    rfl
  · rw [decodeFrames_encode frames width height filename, List.length_map]

/-- C3 counterexample: called with zero frames, `encodeAndDownloadGif` does
not fail fast: it produces a stream holding only the header and the trailer
and still delivers it to `downloadFile`, contradicting the claim that no
output is emitted and nothing reaches the download collaborator. -/
theorem c3_counterexample :
    (encodeAndDownloadGif [] 100 100 "myGif").1
      = [GifChunk.header, GifChunk.trailer]
    ∧ (encodeAndDownloadGif [] 100 100 "myGif").2
      = ⟨[GifChunk.header, GifChunk.trailer], "myGif", "gif"⟩ :=
  ⟨rfl, rfl⟩

/-- C3 amended: `encodeAndDownloadGif` checks no non-empty precondition: on
an empty frame sequence it emits a header-and-trailer-only stream with zero
frame records and delivers exactly that stream to the download
collaborator. -/
theorem c3_empty_sequence (width height : Nat) (filename : String) :
    (encodeAndDownloadGif [] width height filename).1
      = [GifChunk.header, GifChunk.trailer]
    ∧ decodeFrames (encodeAndDownloadGif [] width height filename).1 = []
    ∧ (encodeAndDownloadGif [] width height filename).2
      = ⟨[GifChunk.header, GifChunk.trailer], filename, "gif"⟩ :=
  ⟨rfl, rfl, rfl⟩

/-- C4 counterexample: a five-frame sequence in which frame 3 has width 5
while the others have width 4 does not make encoding fail: all five records
are written (with the ambient canvas width, not the frame widths) and the
stream is delivered to the download collaborator, contradicting the claimed
`DimensionMismatchError` abort. -/
theorem c4_counterexample :
    (mismatchedFrames.get? 2).map (fun f => f.image.width) = some 5
    ∧ (mismatchedFrames.get? 0).map (fun f => f.image.width) = some 4
    ∧ (decodeFrames (encodeAndDownloadGif mismatchedFrames 4 1 "anim").1).length = 5
    ∧ (encodeAndDownloadGif mismatchedFrames 4 1 "anim").2.payload
        = (encodeAndDownloadGif mismatchedFrames 4 1 "anim").1 := by
  refine ⟨rfl, rfl, ?_, rfl⟩
  decide

/-- C4 amended: `encodeAndDownloadGif` never inspects the dimensions of its
frames: whatever the frame dimensions are (matching or not), every frame is
encoded into its own record stamped with the ambient canvas width and
height, the full stream is produced, and it is delivered to the download
collaborator; no dimension error exists. -/
theorem c4_no_dimension_check (frames : List GifFrame) (width height : Nat)
    (filename : String) :
    (decodeFrames (encodeAndDownloadGif frames width height filename).1).length
      = frames.length
    ∧ (∀ df ∈ decodeFrames (encodeAndDownloadGif frames width height filename).1,
        df.width = width ∧ df.height = height)
    ∧ (encodeAndDownloadGif frames width height filename).2.payload
        = (encodeAndDownloadGif frames width height filename).1 := by
  refine ⟨?_, ?_, rfl⟩
  · rw [decodeFrames_encode frames width height filename, List.length_map]
  · intro df hdf
    rw [decodeFrames_encode frames width height filename] at hdf
    rcases List.mem_map.mp hdf with ⟨f, _, hf⟩
    rw [← hf]
    exact ⟨rfl, rfl⟩

/-- C2: an fps value outside [0, 22] is clamped to that range and a duration
outside [0, 15] seconds is clamped to that range before either is used to
schedule capture, and a call with fps 100 and duration 30 produces exactly
the same session as a call with fps 22 and duration 15. -/
theorem c2_clamping :
    (∀ x : ℚ, 0 ≤ effFps (some x) ∧ effFps (some x) ≤ 22
      ∧ (22 < x → effFps (some x) = 22) ∧ (x < 0 → effFps (some x) = 0))
    ∧ (∀ d : ℚ, 0 ≤ effDurationMs (some d) ∧ effDurationMs (some d) ≤ 15000
      ∧ (15 < d → effDurationMs (some d) = 15000)
      ∧ (d < 0 → effDurationMs (some d) = 0))
    ∧ (∀ (fName : String) (ext : Option String) (callback : Bool)
        (toDataURL : String → String) (late : Nat),
        saveFramesModel fName ext (some 30) (some 100) callback toDataURL late
          = saveFramesModel fName ext (some 15) (some 22) callback toDataURL late) := by
  refine ⟨?_, ?_, ?_⟩
  · intro x
    unfold effFps constrain jsOr
    by_cases hx : x = 0
    · subst hx; norm_num
    · simp only [if_neg hx]
      refine ⟨le_max_right _ _, max_le (min_le_right _ _) (by norm_num), ?_, ?_⟩
      · intro h22
        rw [min_eq_right (le_of_lt h22), max_eq_left (by norm_num)]
      · intro hneg
        rw [min_eq_left (by linarith), max_eq_right (le_of_lt hneg)]
  · intro d
    unfold effDurationMs constrain jsOr
    by_cases hd : d = 0
    · subst hd; norm_num
    · simp only [if_neg hd]
      have hnn : (0 : ℚ) ≤ max (min d 15) 0 := le_max_right _ _
      have hub : max (min d 15) 0 ≤ 15 := max_le (min_le_right _ _) (by norm_num)
      refine ⟨by linarith, by linarith, ?_, ?_⟩
      · intro h15
        rw [min_eq_right (le_of_lt h15), max_eq_left (by norm_num)]
        norm_num
      · intro hneg
        rw [min_eq_left (by linarith), max_eq_right (le_of_lt hneg)]
        norm_num
  · intro fName ext callback toDataURL late
    unfold saveFramesModel
    have h1 : effFps (some 100) = effFps (some 22) := by decide
    have h2 : cutoffMs (some 30) = cutoffMs (some 15) := by
      norm_num [cutoffMs, effDurationMs, constrain, jsOr]
    rw [h1, h2]

/-- C5: for every session whose effective fps is positive, capture
terminates at `durationSeconds * 1000` milliseconds plus the deterministic
epsilon 0.01: exactly the ticks at or before that cutoff are included (the
last tick before the cutoff is the final included frame), the interval is
cancelled, late firings change nothing, and the completed buffer is handed
to the caller-supplied callback if one was given and otherwise every frame
goes to the download path, after which the buffer is cleared. -/
theorem c5_capture_termination (fName : String) (ext : Option String)
    (durArg fpsArg : Option ℚ) (callback : Bool)
    (toDataURL : String → String) (late : Nat)
    (hfps : 0 < effFps fpsArg) :
    cutoffMs durArg = effDurationMs durArg + 1 / 100
    ∧ (∀ k : Nat, k < tickCount (effFps fpsArg) (cutoffMs durArg)
        ↔ ((k : ℚ) + 1) * (1000 / effFps fpsArg) ≤ cutoffMs durArg)
    ∧ (saveFramesModel fName ext durArg fpsArg callback toDataURL late).intervalActive
        = false
    ∧ (saveFramesModel fName ext durArg fpsArg callback toDataURL late).frames = []
    ∧ (saveFramesModel fName ext durArg fpsArg callback toDataURL late).delivered
        = some (if callback
            then Delivery.toCallback
              ((List.range (tickCount (effFps fpsArg) (cutoffMs durArg))).map
                (sessionMk fName ext toDataURL))
            else Delivery.downloads
              ((List.range (tickCount (effFps fpsArg) (cutoffMs durArg))).map
                (sessionMk fName ext toDataURL)))
    ∧ saveFramesModel fName ext durArg fpsArg callback toDataURL late
        = saveFramesModel fName ext durArg fpsArg callback toDataURL 0 := by
  refine ⟨rfl, ?_, ?_, ?_, ?_, ?_⟩
  · intro k
    exact (tickCount_iff _ _ hfps k).symm
  · simp [saveFramesModel, runSession_eq]
  · simp [saveFramesModel, runSession_eq]
  · simp [saveFramesModel, runSession_eq]
  · unfold saveFramesModel
    rw [runSession_eq, runSession_eq]

/-- C5 witness: the session at fps 10, duration 2 seconds, no callback,
with three late firings, ends with an empty buffer. -/
theorem c5_witness :
    (saveFramesModel "frame" (some "png") (some 2) (some 10) false demoURL 3).frames
      = [] :=
  (c5_capture_termination "frame" (some "png") (some 2) (some 10) false demoURL 3
    (by decide)).2.2.2.1

/-- C6: for every palette produced by `quantize` and every color entry
actually present in it, `applyPalette` on the same data assigns each pixel
of that color the exact index of its own palette entry, because indexing
uses the identical matching rule quantization used. -/
theorem c6_roundtrip_index (data : List RGBA) (m i p : Nat) (c px : RGBA)
    (hi : (quantize data m).get? i = some c)
    (hp : data.get? p = some px)
    (hc : reduce4444 px = c) :
    (applyPalette data (quantize data m)).get? p = some i := by
  unfold applyPalette
  rw [List.get?_map, hp]
  simp only [Option.map_some']
  rw [hc]
  exact congrArg some (nearestIdx_of_mem c _ i (quantize_nodup data m) hi)

/-- C6 witness: a single solid-color 10 by 10 RGBA frame quantized with
maxColors 256 yields a palette of length 1 and 100 index bytes that are all
0; in particular pixel 99 round-trips to index 0 of its own palette entry. -/
theorem c6_witness :
    (quantize solidFrame 256).length = 1
    ∧ applyPalette solidFrame (quantize solidFrame 256) = List.replicate 100 0
    ∧ (applyPalette solidFrame (quantize solidFrame 256)).get? 99 = some 0 :=
  ⟨by decide, by decide,
   c6_roundtrip_index solidFrame 256 0 99 ⟨1, 5, 12, 15⟩ solidColor
     (by decide) (by decide) (by decide)⟩

/-- C7: a session with fps 10 and duration 2 seconds buffers exactly 20
frame records, carrying consecutive sequence indices 0 through 19 in their
file names, and all 20 are in the buffer while nothing has yet been
delivered; delivery then hands over exactly those 20 records. -/
theorem c7_ten_fps_two_seconds (fName : String) (ext : Option String)
    (toDataURL : String → String) (callback : Bool) (late : Nat) :
    tickCount (effFps (some 10)) (cutoffMs (some 2)) = 20
    ∧ (capturePhase (sessionMk fName ext toDataURL) 20).frames
        = (List.range 20).map (sessionMk fName ext toDataURL)
    ∧ ((capturePhase (sessionMk fName ext toDataURL) 20).frames).length = 20
    ∧ (capturePhase (sessionMk fName ext toDataURL) 20).delivered = none
    ∧ (saveFramesModel fName ext (some 2) (some 10) callback toDataURL late).delivered
        = some (if callback
            then Delivery.toCallback ((List.range 20).map (sessionMk fName ext toDataURL))
            else Delivery.downloads ((List.range 20).map (sessionMk fName ext toDataURL))) := by
  have h20 : tickCount (effFps (some 10)) (cutoffMs (some 2)) = 20 := by
    norm_num [tickCount, effFps, cutoffMs, effDurationMs, constrain, jsOr]
    decide
  refine ⟨h20, ?_, ?_, ?_, ?_⟩
  · rw [capturePhase_eq]
  · rw [capturePhase_eq]
    simp
  · rw [capturePhase_eq]
  · simp [saveFramesModel, h20, runSession_eq]

/-- C8: after dispatch completes, the frame buffer of the session is
emptied, the timer is cancelled, and the final state is exactly the
post-dispatch state determined by the arguments of this session alone;
every session starts from the same fresh empty state, so no entity survives
from one capture session into another. -/
theorem c8_session_isolation (mk : Nat → FrameRecord) (callback : Bool)
    (ticks late : Nat) :
    (runSession mk callback ticks late).frames = []
    ∧ (runSession mk callback ticks late).intervalActive = false
    ∧ runSession mk callback ticks late
      = ⟨[], ticks, false,
         some (if callback then Delivery.toCallback ((List.range ticks).map mk)
               else Delivery.downloads ((List.range ticks).map mk))⟩
    ∧ capturePhase mk 0 = initState := by
  refine ⟨?_, ?_, runSession_eq mk callback ticks late, rfl⟩ <;> rw [runSession_eq]

/-- C9 counterexample: a negative fps argument is truthy, so it is not
replaced by the default 15; it is clamped to 0, and the fps actually used
to compute the timer period is 0, not strictly positive, making
`1000 / fps` a division by zero after all. -/
theorem c9_counterexample :
    effFps (some (-1)) = 0 ∧ ¬ 0 < effFps (some (-1)) := by
  constructor
  · decide
  · decide

/-- C9 amended: an fps argument of 0 (or an absent one) is replaced by the
default 15 before clamping, and a duration of 0 (or an absent one) by the
default 3 seconds, so for every call whose fps argument is absent or
non-negative the fps actually used is strictly positive and `1000 / fps`
is not a division by zero; a negative fps argument, however, survives the
default and clamps to 0. -/
theorem c9_fps_defaults (fpsArg : Option ℚ)
    (hf : ∀ x, fpsArg = some x → 0 ≤ x) :
    0 < effFps fpsArg
    ∧ effFps (some 0) = 15 ∧ effFps none = 15
    ∧ jsOr (some 0) 3 = 3 ∧ jsOr none 3 = 3 := by
  refine ⟨?_, by decide, by decide, by decide, rfl⟩
  cases fpsArg with
  | none => decide
  | some x =>
    have hx : 0 ≤ x := hf x rfl
    by_cases hx0 : x = 0
    · subst hx0; decide
    · have hxpos : 0 < x := lt_of_le_of_ne hx (Ne.symm hx0)
      unfold effFps constrain jsOr
      simp only [if_neg hx0]
      have hmin : 0 < min x 22 := lt_min hxpos (by norm_num)
      exact lt_of_lt_of_le hmin (le_max_left _ _)

/-- C9 witness: with fps argument 5 the fps actually used is positive. -/
theorem c9_witness : 0 < effFps (some 5) :=
  (c9_fps_defaults (some 5)
    (by intro x hx; injection hx with h; rw [← h]; norm_num)).1

/-- C10: a still-export record from `_makeFrame` defaults its extension to
png when none (or an empty one) is supplied, maps any supplied extension
other than png, jpeg or jpg (compared lowercased) to the png mime type, and
its imageData equals the canvas data URI with the chosen mime type replaced
by the octet-stream mime type. -/
theorem c10_makeFrame_record :
    (∀ (fn : String) (u : String → String),
        makeFrame fn none u
          = ⟨replaceFirst (u "image/png") "image/png" "image/octet-stream", fn, "png"⟩)
    ∧ (∀ (fn : String) (u : String → String),
        makeFrame fn (some "") u
          = ⟨replaceFirst (u "image/png") "image/png" "image/octet-stream", fn, "png"⟩)
    ∧ (∀ e : String, e ≠ "" → jsToLower e ≠ "png" → jsToLower e ≠ "jpeg" →
        jsToLower e ≠ "jpg" → frameMime (some e) = "image/png")
    ∧ (∀ (fn : String) (e : Option String) (u : String → String),
        (makeFrame fn e u).imageData
          = replaceFirst (u (frameMime e)) (frameMime e) "image/octet-stream") := by
  refine ⟨fun fn u => rfl, fun fn u => rfl, ?_, fun fn e u => rfl⟩
  intro e h0 h1 h2 h3
  simp [frameMime, h0, h1, h2, h3]

end P5Image
